import Mathlib

/-!
A verification development for the ATX disk-image handling code (`src/atx.c`)
of the sdrive-max repository.

The C code is shallowly embedded: machine integers are modelled as `Nat`/`Int`
with explicit `% 2^w` reductions where the C code truncates, the external
collaborators (byte-range reader `faccess_offset`, head-position sensor
`getCurrentHeadPosition`, the `rand()` stream, and the wall-clock delay
primitive) are modelled as oracle inputs supplied in a `SectorEnv` record,
and the wall-clock delays are recorded symbolically as `Phase` markers in an
execution trace.  Global mutable state (`gSectorsPerTrack`, `gBytesPerSector`,
`gTrackInfo`, `gLastAngle`, `gCurrentHeadTrack`) is threaded explicitly as an
`AtxGlobals` record.
-/

/-- Number of angular units in a full disk rotation (`AU_FULL_ROTATION`). -/
def AU_FULL_ROTATION : Nat := 26042

/-- Bitwise complement of a byte as the C code computes it: `~x` on a `u08`
promoted to `int` and stored back into a `u08` is `255 - (x % 256)`. -/
def complement8 (x : Nat) : Nat := 255 - x % 256

/-- Reinterpret a natural number, reduced mod 2^16, as a signed 16-bit value
(the target is AVR, where `int` is 16 bits wide). -/
def toSigned16 (x : Nat) : Int :=
  if x % 65536 < 32768 then ((x % 65536 : Nat) : Int)
  else ((x % 65536 : Nat) : Int) - 65536

/-- The C expression `int tt = sectorHeader->timev - headPosition;` on AVR:
the `u16` subtraction wraps mod 2^16 and the result is reinterpreted as a
signed 16-bit `int`. -/
def ttOf (timev head : Nat) : Int :=
  toSigned16 (timev % 65536 + 65536 - head % 65536)

/-- The value `num - 1` computed in unsigned 16-bit arithmetic (wraps at 0). -/
def u16sub1 (num : Nat) : Nat := (num % 65536 + 65535) % 65536

/-- The derivation `u08 tgtTrackNumber = (num - 1) / gSectorsPerTrack + 1;`
(the quotient-plus-one is truncated into an 8-bit variable). -/
def tgtTrackOf (spt num : Nat) : Nat := (u16sub1 num / spt + 1) % 256

/-- The derivation `u08 tgtSectorNumber = (num - 1) % gSectorsPerTrack + 1;` -/
def tgtSectorOf (spt num : Nat) : Nat := (u16sub1 num % spt + 1) % 256

/-- Forward angular distance from the head sample to an angular mark, as the
specification describes it: `timev - head` when that is positive, otherwise
`timev - head + 26042` (a wrapped occurrence). -/
def fwd (head timev : Nat) : Int :=
  if 0 < (timev : Int) - (head : Int) then (timev : Int) - (head : Int)
  else (timev : Int) - (head : Int) + 26042

/-- Contents of `struct atxFileHeader` as read from the scratch buffer
(`sig0..sig3` are the four magic bytes). -/
structure AtxFileHeaderRec where
  sig0 : Nat
  sig1 : Nat
  sig2 : Nat
  sig3 : Nat
  version : Nat
  minVersion : Nat
  density : Nat
  startData : Nat
deriving DecidableEq

/-- Contents of `struct atxTrackHeader` (the fields `atx.c` uses). -/
structure AtxTrackHeaderRec where
  trackNumber : Nat
  size : Nat
  sectorCount : Nat
  headerSize : Nat
deriving DecidableEq

/-- Contents of `struct atxSectorHeader` (fields are a `u08` sector number,
a `u16` angular mark, a `u08` status byte and a `u32` data offset). -/
structure SectorHeaderRec where
  number : Nat
  timev : Nat
  status : Nat
  data : Nat
deriving DecidableEq

instance : Inhabited SectorHeaderRec := ⟨⟨0, 0, 0, 0⟩⟩

/-- Contents of `struct atxExtendedSectorData`. -/
structure ExtRecordRec where
  sectorIndex : Nat
  type : Nat
  data : Nat
deriving DecidableEq

/-- The mutable globals of `atx.c`:
`gSectorsPerTrack`, `gBytesPerSector`, `gTrackInfo`, `gLastAngle`,
`gCurrentHeadTrack`.  `gTrackInfo` is modelled as a total map
`(drive, index) -> offset`; the C array has the fixed shape `[2][40]`, so an
update at index `>= 40` corresponds to an out-of-bounds write. -/
structure AtxGlobals where
  gSectorsPerTrack : Nat
  gBytesPerSector : Nat
  gTrackInfo : Nat → Nat → Nat
  gLastAngle : Nat
  gCurrentHeadTrack : Nat

/-- C globals initialize to zero: the state before any `loadAtxFile` call. -/
def atxInitialGlobals : AtxGlobals :=
  { gSectorsPerTrack := 0
    gBytesPerSector := 0
    gTrackInfo := fun _ _ => 0
    gLastAngle := 0
    gCurrentHeadTrack := 0 }

/-- Modelled from the spec: `ATX_VERSION` is defined in `atx.h`, which is not
part of the sources; the spec says both version fields must equal the single
version the system supports.  The concrete value is irrelevant to the claims;
the released format version is 1. -/
def ATX_VERSION : Nat := 1

/-- The header validation of `loadAtxFile` (lines 65-72): magic must be
`'A' 'T' '8' 'X'` (65, 84, 56, 88) and both version fields must equal
`ATX_VERSION`. -/
def headerValid (h : AtxFileHeaderRec) : Bool :=
  (h.sig0 == 65) && (h.sig1 == 84) && (h.sig2 == 56) && (h.sig3 == 88) &&
  (h.version == ATX_VERSION) && (h.minVersion == ATX_VERSION)

/-- The track-offset walk of `loadAtxFile` (lines 80-88).  The oracle input
`tracks` is the sequence of track headers the byte-range reader successfully
returns before the first failing read (the loop stops at the first failure;
reads are deterministic per offset).  Each step stores the running offset
into `gTrackInfo[drive][trackHeader->trackNumber]` with no bound check and
advances the offset by the header's declared `size` (`u32` arithmetic).
Returns the updated map together with the list of row indices written, in
order. -/
def trackWalk (drive : Nat) : (Nat → Nat → Nat) → Nat → List AtxTrackHeaderRec →
    ((Nat → Nat → Nat) × List Nat)
  | g, _, [] => (g, [])
  | g, off, t :: rest =>
    let g' : Nat → Nat → Nat := fun d k => if d = drive ∧ k = t.trackNumber then off else g d k
    let w := trackWalk drive g' ((off + t.size) % 4294967296) rest
    (w.1, t.trackNumber :: w.2)

/-- The function `loadAtxFile` (lines 56-91).  `hdr` is the buffer content interpreted as
the file header after the initial read; `tracks` is the sequence of track
headers successfully read by the walk.  Returns the C return value, the
updated globals, and the list of `gTrackInfo` row indices written. -/
def loadAtxFile (g : AtxGlobals) (drive : Nat) (hdr : AtxFileHeaderRec)
    (tracks : List AtxTrackHeaderRec) : Nat × AtxGlobals × List Nat :=
  if headerValid hdr then
    let spt : Nat := if hdr.density = 1 then 26 else 18
    let bps : Nat := if hdr.density = 1 then 256 else 128
    let w := trackWalk drive g.gTrackInfo (hdr.startData % 4294967296) tracks
    (bps, { g with gSectorsPerTrack := spt, gBytesPerSector := bps, gTrackInfo := w.1 }, w.2)
  else
    (0, g, [])

/-- State of the sector-list scan loop of `loadAtxSector` (lines 163-190).
`accepted` is a ghost field recording, in order, every `(loop index, header)`
pair that became the running best candidate; it does not influence any other
field. -/
structure ScanState where
  pTT : Int
  lastAngle : Nat
  status : Nat
  tgtSectorIndex : Nat
  tgtSectorOffset : Nat
  maxSectorOffset : Nat
  hasError : Bool
  extRecordCount : Nat
  accepted : List (Nat × SectorHeaderRec)

/-- The scan state as initialized before the loop: `pTT = 0`, `*status = 0xF7`,
`gLastAngle` keeps its previous value. -/
def initScanState (la0 : Nat) : ScanState :=
  { pTT := 0
    lastAngle := la0
    status := 0xF7
    tgtSectorIndex := 0
    tgtSectorOffset := 0
    maxSectorOffset := 0
    hasError := false
    extRecordCount := 0
    accepted := [] }

/-- The replacement condition of line 171:
`pTT == 0 || (tt > 0 && pTT < 0) || (tt > 0 && pTT > 0 && tt < pTT) || (tt < 0 && pTT < 0 && tt < pTT)`. -/
def acceptCond (pTT tt : Int) : Bool :=
  (pTT == 0) || (decide (0 < tt) && decide (pTT < 0)) ||
  (decide (0 < tt) && decide (0 < pTT) && decide (tt < pTT)) ||
  (decide (tt < 0) && decide (pTT < 0) && decide (tt < pTT))

/-- One successfully-read sector header processed by the loop body
(lines 166-187). -/
def scanStep (head tgt i : Nat) (h : SectorHeaderRec) (s : ScanState) : ScanState :=
  if h.number = tgt then
    let tt := ttOf h.timev head
    if acceptCond s.pTT tt then
      { pTT := tt
        lastAngle := h.timev
        status := complement8 h.status
        tgtSectorIndex := i
        tgtSectorOffset := h.data
        maxSectorOffset := if s.maxSectorOffset < h.data then h.data else s.maxSectorOffset
        hasError := s.hasError || decide (0 < h.status)
        extRecordCount := (s.extRecordCount + if h.status &&& 64 ≠ 0 then 1 else 0) % 256
        accepted := s.accepted ++ [(i, h)] }
    else s
  else s

/-- The scan loop (lines 164-190) driven by the read oracle `f`: the loop
counter `i` advances every iteration, but the file offset (index `idx` into
the oracle) advances only when the read succeeds, because the
`currentFileOffset += sizeof(...)` of line 188 sits inside the success
branch. -/
def scanAux (head tgt : Nat) (f : Nat → Option SectorHeaderRec) :
    Nat → Nat → Nat → ScanState → ScanState
  | 0, _, _, s => s
  | fuel + 1, i, idx, s =>
    match f idx with
    | some h => scanAux head tgt f fuel (i + 1) (idx + 1) (scanStep head tgt i h s)
    | none => scanAux head tgt f fuel (i + 1) idx s

/-- The extended-data record walk (lines 194-206): read `count` records in
order (the offset advances whether or not the read succeeds); every record
whose `sectorIndex` equals the finally chosen occurrence's list index and
whose `type` is `0x10` overwrites the weak offset (last match wins). -/
def extScan (ext : Nat → Option ExtRecordRec) (count tgtIdx : Nat) : Int :=
  (List.range count).foldl
    (fun w i =>
      match ext i with
      | some r => if r.sectorIndex = tgtIdx ∧ r.type = 16 then (r.data : Int) else w
      | none => w)
    (-1)

/-- The randomization loop of lines 217-219, written exactly as the C loop:
indices `i = start, start+1, ...` up to (excluding) `bps` are overwritten
one at a time with `rand() % 256`.  The `rand()` stream is modelled by the
oracle `rand`, indexed by the buffer position being written. -/
def weakFillAux (rand : Nat → Nat) : Nat → Nat → (Nat → Nat) → (Nat → Nat)
  | _, 0, b => b
  | i, n + 1, b => weakFillAux rand (i + 1) n (Function.update b i (rand i % 256))

/-- The loop `for (i = weakOffset; i < gBytesPerSector; i++) buffer[i] = rand() % 256;` -/
def weakFill (rand : Nat → Nat) (start bps : Nat) (b : Nat → Nat) : Nat → Nat :=
  weakFillAux rand start (bps - start) b

/-- Symbolic markers for the externally observable steps of one
`loadAtxSector` call: wall-clock delays, head-position samples and
byte-range reads, in execution order. -/
inductive Phase where
  | requestDelay
  | seekSteps
  | headSettle
  | headSample1
  | readTrackHeader
  | readSectorList
  | scanReads
  | readExtRecords
  | readData
  | weakRandFill
  | headSample2
  | rotDelay
  | finalDelay
deriving DecidableEq

/-- Oracle inputs for one `loadAtxSector` call: the two head-position
samples, the buffer contents produced by each byte-range read, the `rand()`
stream, and the payload-read return value. -/
structure SectorEnv where
  head1 : Nat
  head2 : Nat
  trackHeader : AtxTrackHeaderRec
  slNext : Nat
  sectors : Nat → Option SectorHeaderRec
  extRecords : Nat → Option ExtRecordRec
  dataReadLen : Nat
  dataBytes : Nat → Nat
  bufferPrior : Nat → Nat
  rand : Nat → Nat

/-- The outputs of one `loadAtxSector` call: the returned byte count, the
`*status` byte, the `*sectorSize` out-parameter (`none` when never written),
the final scratch-buffer contents, the chosen occurrence's list index and
data offset, the error flag, the ghost list of occurrences that became the
running best, the resolved weak offset, and the symbolic trace. -/
structure SectorResult where
  bytes : Nat
  status : Nat
  sectorSize : Option Nat
  buffer : Nat → Nat
  chosenIndex : Nat
  chosenOffset : Nat
  hasError : Bool
  accepted : List (Nat × SectorHeaderRec)
  weakOffset : Int
  trace : List Phase

/-- The result of the two early-failure returns of `loadAtxSector` (lines
117-119 and 150-152): zero bytes, the 0xF7 sentinel status, `*sectorSize`
never written, the buffer untouched by a payload read. -/
def notFoundResult (env : SectorEnv) (tr : List Phase) : SectorResult :=
  { bytes := 0
    status := 0xF7
    sectorSize := none
    buffer := env.bufferPrior
    chosenIndex := 0
    chosenOffset := 0
    hasError := false
    accepted := []
    weakOffset := -1
    trace := tr }

/-- The scan-loop invocation of `loadAtxSector` (line 164): fuel is the track
header's `sectorCount`, both the loop counter and the read index start at 0. -/
def scanOf (g : AtxGlobals) (env : SectorEnv) (head tgtSectorNumber : Nat) : ScanState :=
  scanAux head tgtSectorNumber env.sectors env.trackHeader.sectorCount 0 0
    (initScanState g.gLastAngle)

/-- The main path of `loadAtxSector` after the track header has been accepted
(lines 154-240): read the sector list, scan it, resolve the weak offset, do
the payload read (only when a nonzero data offset was resolved), force the
count to 0 on `hasError`, randomize the weak region, and run the final
timing steps. -/
def loadAtxSectorMain (g : AtxGlobals) (env : SectorEnv)
    (head tgtTrackNumber tgtSectorNumber : Nat) (preTrace : List Phase) :
    SectorResult × AtxGlobals :=
  let s1 := scanOf g env head tgtSectorNumber
  let weakOffset : Int :=
    if 0 < s1.extRecordCount then extScan env.extRecords s1.extRecordCount s1.tgtSectorIndex
    else -1
  let rawCount : Nat := if s1.tgtSectorOffset ≠ 0 then env.dataReadLen else 0
  let count : Nat := if s1.hasError then 0 else rawCount
  let bufAfterRead : Nat → Nat := if s1.tgtSectorOffset ≠ 0 then env.dataBytes else env.bufferPrior
  let buf : Nat → Nat :=
    if -1 < weakOffset then weakFill env.rand weakOffset.toNat g.gBytesPerSector bufAfterRead
    else bufAfterRead
  ({ bytes := count
     status := s1.status
     sectorSize := some g.gBytesPerSector
     buffer := buf
     chosenIndex := s1.tgtSectorIndex
     chosenOffset := s1.tgtSectorOffset
     hasError := s1.hasError
     accepted := s1.accepted
     weakOffset := weakOffset
     trace := preTrace ++ [Phase.readSectorList, Phase.scanReads]
       ++ (if 0 < s1.extRecordCount then [Phase.readExtRecords] else [])
       ++ (if s1.tgtSectorOffset ≠ 0 then [Phase.readData] else [])
       ++ (if -1 < weakOffset then [Phase.weakRandFill] else [])
       ++ [Phase.headSample2, Phase.rotDelay, Phase.finalDelay] },
   { g with gCurrentHeadTrack := tgtTrackNumber, gLastAngle := s1.lastAngle })

/-- The trace of the steps preceding the track-header check: the request
delay, the seek steps and head settle when the head must move, the first
head-position sample, and the track-header read (lines 122-145). -/
def preTraceOf (g : AtxGlobals) (num : Nat) : List Phase :=
  Phase.requestDelay ::
    ((if g.gCurrentHeadTrack ≠ tgtTrackOf g.gSectorsPerTrack num then
        [Phase.seekSteps, Phase.headSettle] else []) ++
      [Phase.headSample1, Phase.readTrackHeader])

/-- The function `loadAtxSector` (lines 93-241).  The C routine begins by dividing by the
global `gSectorsPerTrack` with no zero guard; division by zero is undefined
behaviour in C, modelled here as `none`.  The track-over-40 check happens
before any delay or read; the track-header mismatch check (line 150) causes
an immediate return that skips the remaining timing steps.  The comparison
`trackHeader->trackNumber != tgtTrackNumber - 1` is carried out after
integer promotion, hence on `Int`. -/
def loadAtxSector (g : AtxGlobals) (env : SectorEnv) (drive num : Nat) :
    Option (SectorResult × AtxGlobals) :=
  if g.gSectorsPerTrack = 0 then
    none
  else
    let tgtTrackNumber := tgtTrackOf g.gSectorsPerTrack num
    let tgtSectorNumber := tgtSectorOf g.gSectorsPerTrack num
    if 40 < tgtTrackNumber then
      some (notFoundResult env [], g)
    else
      let preTrace := preTraceOf g num
      if env.trackHeader.sectorCount = 0 ∨
          (env.trackHeader.trackNumber : Int) ≠ (tgtTrackNumber : Int) - 1 then
        some (notFoundResult env preTrace, { g with gCurrentHeadTrack := tgtTrackNumber })
      else
        some (loadAtxSectorMain g env env.head1 tgtTrackNumber tgtSectorNumber preTrace)

/-- A loaded single-density drive state: geometry (18, 128), head on track 1. -/
def gStd : AtxGlobals :=
  { gSectorsPerTrack := 18
    gBytesPerSector := 128
    gTrackInfo := fun _ _ => 0
    gLastAngle := 0
    gCurrentHeadTrack := 1 }

/-- An environment whose track-header read yields `sectorCount = 0`. -/
def envZero : SectorEnv :=
  { head1 := 50
    head2 := 60
    trackHeader := { trackNumber := 0, size := 0, sectorCount := 0, headerSize := 8 }
    slNext := 0
    sectors := fun _ => none
    extRecords := fun _ => none
    dataReadLen := 128
    dataBytes := fun i => (i + 1) % 256
    bufferPrior := fun _ => 9
    rand := fun i => i + 3 }

/-- An environment for track 1 (stored track number 0) whose sector list is
the given list of headers, all reads succeeding. -/
def envOf (l : List SectorHeaderRec) (ext : Nat → Option ExtRecordRec) : SectorEnv :=
  { head1 := 50
    head2 := 60
    trackHeader := { trackNumber := 0, size := 0, sectorCount := l.length, headerSize := 8 }
    slNext := 0
    sectors := fun i => l[i]?
    extRecords := ext
    dataReadLen := 128
    dataBytes := fun i => (i + 1) % 256
    bufferPrior := fun _ => 9
    rand := fun i => i + 3 }

/-- C8: loading an image whose magic is not `AT8X` or whose version or
minVersion differs from the supported version returns 0 and leaves
`gTrackInfo[drive]`, `gSectorsPerTrack` and `gBytesPerSector` (indeed the
whole global state) unchanged, with no index entry written. -/
theorem C8_invalid_header_rejected (g : AtxGlobals) (drive : Nat)
    (hdr : AtxFileHeaderRec) (tracks : List AtxTrackHeaderRec)
    (hbad : hdr.sig0 ≠ 65 ∨ hdr.sig1 ≠ 84 ∨ hdr.sig2 ≠ 56 ∨ hdr.sig3 ≠ 88 ∨
      hdr.version ≠ ATX_VERSION ∨ hdr.minVersion ≠ ATX_VERSION) :
    loadAtxFile g drive hdr tracks = (0, g, []) := by
  have hv : ¬ (headerValid hdr = true) := by
    simp only [headerValid, Bool.and_eq_true, beq_iff_eq]
    rcases hbad with h | h | h | h | h | h <;> tauto
  rw [Bool.not_eq_true] at hv
  simp [loadAtxFile, hv]

/-- C8 witness: a header with a wrong first magic byte is rejected with the
globals untouched. -/
theorem C8_invalid_header_rejected_witness :
    loadAtxFile atxInitialGlobals 0 ⟨66, 84, 56, 88, 1, 1, 0, 32⟩ [] =
      (0, atxInitialGlobals, []) :=
  C8_invalid_header_rejected atxInitialGlobals 0 ⟨66, 84, 56, 88, 1, 1, 0, 32⟩ []
    (Or.inl (by decide))

/-- C9: for a validated header, `loadAtxFile` derives sectors-per-track 26
and bytes-per-sector 256 when the density code is 1, and 18 / 128 for any
other density, and returns the bytes-per-sector value. -/
theorem C9_density_geometry (g : AtxGlobals) (drive : Nat)
    (hdr : AtxFileHeaderRec) (tracks : List AtxTrackHeaderRec)
    (hvalid : headerValid hdr = true) :
    (loadAtxFile g drive hdr tracks).2.1.gSectorsPerTrack =
        (if hdr.density = 1 then 26 else 18) ∧
    (loadAtxFile g drive hdr tracks).2.1.gBytesPerSector =
        (if hdr.density = 1 then 256 else 128) ∧
    (loadAtxFile g drive hdr tracks).1 = (if hdr.density = 1 then 256 else 128) := by
  simp [loadAtxFile, hvalid]

/-- C9 witness: an enhanced-density (density = 1) image yields (26, 256) and
returns 256. -/
theorem C9_density_geometry_witness :
    (loadAtxFile atxInitialGlobals 0 ⟨65, 84, 56, 88, 1, 1, 1, 32⟩ []).2.1.gSectorsPerTrack =
        (if (1 : Nat) = 1 then 26 else 18) ∧
    (loadAtxFile atxInitialGlobals 0 ⟨65, 84, 56, 88, 1, 1, 1, 32⟩ []).2.1.gBytesPerSector =
        (if (1 : Nat) = 1 then 256 else 128) ∧
    (loadAtxFile atxInitialGlobals 0 ⟨65, 84, 56, 88, 1, 1, 1, 32⟩ []).1 =
        (if (1 : Nat) = 1 then 256 else 128) :=
  C9_density_geometry atxInitialGlobals 0 ⟨65, 84, 56, 88, 1, 1, 1, 32⟩ [] (by decide)

/-- C2: the claim asserts a defensive bound check prevents a track header
with `trackNumber >= 40` from being stored out of bounds.  The code has no
such check: on a valid image whose first track header declares track number
40, the walk performs a `gTrackInfo` row write at index 40, one past the
last valid row index (39) of the fixed `[2][40]` table. -/
theorem C2_track40_write_out_of_bounds :
    (loadAtxFile atxInitialGlobals 0 ⟨65, 84, 56, 88, 1, 1, 0, 32⟩
        [⟨40, 16, 0, 0⟩]).2.2 = [40] ∧ ¬ (40 < 40) := by
  constructor
  · rfl
  · decide

/-- C10: `loadAtxSector` divides by `gSectorsPerTrack` with no zero guard;
the global initializes to 0, so a sector request before any successful image
load hits a division by zero (undefined behaviour, modelled as `none`), and
the call is well-defined exactly when `gSectorsPerTrack` is nonzero. -/
theorem C10_division_precondition :
    atxInitialGlobals.gSectorsPerTrack = 0 ∧
    ∀ (g : AtxGlobals) (env : SectorEnv) (drive num : Nat),
      (loadAtxSector g env drive num = none ↔ g.gSectorsPerTrack = 0) := by
  refine ⟨rfl, fun g env drive num => ⟨fun h => ?_, fun h0 => by simp [loadAtxSector, h0]⟩⟩
  by_contra hne
  rw [loadAtxSector, if_neg hne] at h
  simp only [] at h
  split at h <;> [skip; split at h] <;> simp_all

/-- C7 counterexample: the claim quantifies over calls whose derived track
number `(num-1)/sectorsPerTrack + 1` exceeds 40, but the code computes that
value into a `u08`, truncating it mod 256 before the `> 40` check.  For
`num = 4609` with 18 sectors per track the derived track is 257 (> 40), the
truncated value is 1, and the call proceeds to issue the track-header read —
contradicting the claim that no byte-range read is issued. -/
theorem C7_counterexample :
    40 < (4609 - 1) / 18 + 1 ∧
    ((loadAtxSector gStd envZero 0 4609).map fun p =>
        decide (Phase.readTrackHeader ∈ p.1.trace)) = some true := by
  constructor
  · decide
  · decide

/-- C7 (amended): for every call whose derived track number as computed by
the code — `((num-1)/sectorsPerTrack + 1) mod 256`, i.e. `tgtTrackOf` —
exceeds 40, the function returns 0 bytes, sets `*status` to 0xF7, leaves
`*sectorSize` unwritten, issues no byte-range read (the trace is empty) and
leaves the drive state unchanged. -/
theorem C7_track_over_40_fails_fast (g : AtxGlobals) (env : SectorEnv)
    (drive num : Nat) (r : SectorResult) (g' : AtxGlobals)
    (hspt : ¬ g.gSectorsPerTrack = 0)
    (h40 : 40 < tgtTrackOf g.gSectorsPerTrack num)
    (hrun : loadAtxSector g env drive num = some (r, g')) :
    r.bytes = 0 ∧ r.status = 0xF7 ∧ r.sectorSize = none ∧ r.trace = [] ∧ g' = g := by
  rw [loadAtxSector, if_neg hspt] at hrun
  simp only [] at hrun
  rw [if_pos h40, Option.some.injEq, Prod.mk.injEq] at hrun
  obtain ⟨h1, h2⟩ := hrun
  rw [← h1, ← h2]
  simp [notFoundResult]

/-- C7 witness: requesting `num = 1000` on an 18-sector geometry derives
track 56 > 40 and fails fast with an empty trace. -/
theorem C7_track_over_40_fails_fast_witness :
    (notFoundResult envZero []).bytes = 0 ∧ (notFoundResult envZero []).status = 0xF7 ∧
    (notFoundResult envZero []).sectorSize = none ∧ (notFoundResult envZero []).trace = [] ∧
    gStd = gStd :=
  C7_track_over_40_fails_fast gStd envZero 0 1000 (notFoundResult envZero []) gStd
    (by decide) (by decide) rfl

/-- C3 counterexample: the claim says a call whose track-header read yields
`sectorCount = 0` still executes timing steps 3-7 (second head sample,
rotational-delay computation, compensated delay) before returning the
0-byte / 0xF7 result.  In the code the check at line 150 returns
immediately: at a concrete such call the result is 0 bytes with status 0xF7
but the trace contains neither the second head sample nor any rotational or
final delay. -/
theorem C3_counterexample :
    envZero.trackHeader.sectorCount = 0 ∧
    ((loadAtxSector gStd envZero 0 5).map fun p =>
        (p.1.bytes, p.1.status,
          decide (Phase.headSample2 ∈ p.1.trace), decide (Phase.rotDelay ∈ p.1.trace),
          decide (Phase.finalDelay ∈ p.1.trace))) = some (0, 0xF7, false, false, false) := by
  constructor
  · rfl
  · decide

/-- C3 (amended): for every call in which the track header read succeeds but
`sectorCount` is 0 or the embedded track number disagrees with the requested
track, the function returns the 0-byte, status-0xF7 not-found result
immediately: the request delay, any seek delay and the first head sample
have run, but the second head-position sample, the rotational-delay
computation and the compensated millisecond delay (steps 5-7) are skipped.
Only the head-track state is still updated. -/
theorem C3_failed_lookup_skips_timing (g : AtxGlobals) (env : SectorEnv)
    (drive num : Nat) (r : SectorResult) (g' : AtxGlobals)
    (hspt : ¬ g.gSectorsPerTrack = 0)
    (htrk : tgtTrackOf g.gSectorsPerTrack num ≤ 40)
    (hfail : env.trackHeader.sectorCount = 0 ∨
      (env.trackHeader.trackNumber : Int) ≠ (tgtTrackOf g.gSectorsPerTrack num : Int) - 1)
    (hrun : loadAtxSector g env drive num = some (r, g')) :
    r.bytes = 0 ∧ r.status = 0xF7 ∧ r.sectorSize = none ∧
    Phase.requestDelay ∈ r.trace ∧ Phase.headSample1 ∈ r.trace ∧
    Phase.readTrackHeader ∈ r.trace ∧
    Phase.headSample2 ∉ r.trace ∧ Phase.rotDelay ∉ r.trace ∧ Phase.finalDelay ∉ r.trace ∧
    g'.gCurrentHeadTrack = tgtTrackOf g.gSectorsPerTrack num := by
  rw [loadAtxSector, if_neg hspt] at hrun
  simp only [] at hrun
  rw [if_neg (by omega : ¬ 40 < tgtTrackOf g.gSectorsPerTrack num), if_pos hfail,
    Option.some.injEq, Prod.mk.injEq] at hrun
  obtain ⟨h1, h2⟩ := hrun
  rw [← h1, ← h2]
  by_cases hsk : g.gCurrentHeadTrack ≠ tgtTrackOf g.gSectorsPerTrack num <;>
    simp [notFoundResult, preTraceOf, hsk]

/-- The pair returned by a concrete zero-sector-count call. -/
def c3pair : SectorResult × AtxGlobals :=
  (loadAtxSector gStd envZero 0 5).getD (notFoundResult envZero [], gStd)

/-- C3 witness: a concrete zero-sector-count call exercising the amended
claim. -/
theorem C3_failed_lookup_skips_timing_witness :
    c3pair.1.bytes = 0 ∧ c3pair.1.status = 0xF7 ∧ c3pair.1.sectorSize = none ∧
    Phase.requestDelay ∈ c3pair.1.trace ∧ Phase.headSample1 ∈ c3pair.1.trace ∧
    Phase.readTrackHeader ∈ c3pair.1.trace ∧
    Phase.headSample2 ∉ c3pair.1.trace ∧ Phase.rotDelay ∉ c3pair.1.trace ∧
    Phase.finalDelay ∉ c3pair.1.trace ∧
    c3pair.2.gCurrentHeadTrack = tgtTrackOf gStd.gSectorsPerTrack 5 :=
  C3_failed_lookup_skips_timing gStd envZero 0 5 c3pair.1 c3pair.2
    (by decide) (by decide) (Or.inl rfl) rfl

/-- When the angular mark and the head sample both fit in a signed 16-bit
value, the wrapped `u16` subtraction reinterpreted as a signed `int` equals
the exact integer difference. -/
lemma ttOf_eq (timev head : Nat) (ht : timev < 32768) (hh : head < 32768) :
    ttOf timev head = (timev : Int) - (head : Int) := by
  unfold ttOf toSigned16
  have h1 : timev % 65536 = timev := Nat.mod_eq_of_lt (by omega)
  have h2 : head % 65536 = head := Nat.mod_eq_of_lt (by omega)
  rw [h1, h2]
  split <;> omega

/-- The forward angular distance of an in-range mark never exceeds one full
rotation. -/
lemma fwd_le_full (head timev : Nat) (ht : timev < 26042) : fwd head timev ≤ 26042 := by
  unfold fwd
  split <;> omega

/-- The head's own position has forward distance exactly one full rotation
(the head has just passed it). -/
lemma fwd_self (head : Nat) : fwd head head = 26042 := by
  unfold fwd
  split <;> omega

/-- When the replacement condition of line 171 fires (with a nonzero
previous difference), the new candidate's forward distance is no larger than
the old one's. -/
lemma fwd_new_le_old (head a b : Nat) (hh : head < 26042) (ha : a < 26042) (hb : b < 26042)
    (hacc : (0 < (b : Int) - head ∧ (a : Int) - head < 0) ∨
      (0 < (b : Int) - head ∧ 0 < (a : Int) - head ∧ (b : Int) - head < (a : Int) - head) ∨
      ((b : Int) - head < 0 ∧ (a : Int) - head < 0 ∧ (b : Int) - head < (a : Int) - head)) :
    fwd head b ≤ fwd head a := by
  unfold fwd
  split <;> split <;> omega

/-- When the replacement condition does not fire (and the previous
difference is nonzero), the old candidate's forward distance is no larger
than the new one's. -/
lemma fwd_old_le_new (head a b : Nat) (hh : head < 26042) (ha : a < 26042) (hb : b < 26042)
    (hne : (a : Int) - head ≠ 0)
    (hrej : ¬ ((0 < (b : Int) - head ∧ (a : Int) - head < 0) ∨
      (0 < (b : Int) - head ∧ 0 < (a : Int) - head ∧ (b : Int) - head < (a : Int) - head) ∨
      ((b : Int) - head < 0 ∧ (a : Int) - head < 0 ∧ (b : Int) - head < (a : Int) - head))) :
    fwd head a ≤ fwd head b := by
  unfold fwd
  push_neg at hrej
  split <;> split <;> omega

/-- The branch condition of line 171 as a proposition. -/
lemma acceptCond_iff (p t : Int) :
    acceptCond p t = true ↔
      (p = 0 ∨ ((0 < t ∧ p < 0) ∨ (0 < t ∧ 0 < p ∧ t < p) ∨ (t < 0 ∧ p < 0 ∧ t < p))) := by
  simp only [acceptCond, Bool.or_eq_true, Bool.and_eq_true, decide_eq_true_eq, beq_iff_eq]
  tauto

/-- List-structured form of the scan loop, for the case in which every
sector-header read succeeds: process the headers in order, the loop counter
starting at `i0`. -/
def scanList (head tgt : Nat) : List SectorHeaderRec → Nat → ScanState → ScanState
  | [], _, s => s
  | h :: t, i, s => scanList head tgt t (i + 1) (scanStep head tgt i h s)

/-- When the oracle successfully returns exactly the headers of `l`, the
fuelled loop `scanAux` computes the same state as the list fold. -/
lemma scanAux_eq_scanList (head tgt : Nat) :
    ∀ (l : List SectorHeaderRec) (f : Nat → Option SectorHeaderRec) (i idx : Nat),
      (∀ j, f (idx + j) = l[j]?) →
      ∀ s, scanAux head tgt f l.length i idx s = scanList head tgt l i s := by
  intro l
  induction l with
  | nil => intro f i idx hf s; rfl
  | cons h t ih =>
    intro f i idx hf s
    have h0 : f idx = some h := by simpa using hf 0
    show scanAux head tgt f (t.length + 1) i idx s = _
    rw [scanAux, h0]
    exact ih f (i + 1) (idx + 1)
      (fun j => by
        have hx := hf (j + 1)
        rw [List.getElem?_cons_succ] at hx
        rwa [show idx + (j + 1) = idx + 1 + j by omega] at hx) _

/-- The matched entries of a sector list: the `(loop index, header)` pairs,
in order, whose sector number equals the target, with loop indices starting
at `i0`. -/
def matchedEntries (tgt : Nat) : Nat → List SectorHeaderRec → List (Nat × SectorHeaderRec)
  | _, [] => []
  | i0, h :: t =>
    if h.number = tgt then (i0, h) :: matchedEntries tgt (i0 + 1) t
    else matchedEntries tgt (i0 + 1) t

/-- Every matched entry points back into the list at its recorded index and
carries the target number. -/
lemma matchedEntries_get (tgt : Nat) :
    ∀ (l : List SectorHeaderRec) (i0 : Nat) (p : Nat × SectorHeaderRec),
      p ∈ matchedEntries tgt i0 l →
      i0 ≤ p.1 ∧ l[p.1 - i0]? = some p.2 ∧ p.2.number = tgt := by
  intro l
  induction l with
  | nil => intro i0 p hp; simp [matchedEntries] at hp
  | cons h t ih =>
    intro i0 p hp
    by_cases hm : h.number = tgt
    · rw [matchedEntries, if_pos hm] at hp
      rcases List.mem_cons.mp hp with hp | hp
      · subst hp; simpa using hm
      · obtain ⟨h1, h2, h3⟩ := ih (i0 + 1) p hp
        refine ⟨by omega, ?_, h3⟩
        have hk : p.1 - i0 = (p.1 - (i0 + 1)) + 1 := by omega
        rw [hk]
        simpa using h2
    · rw [matchedEntries, if_neg hm] at hp
      obtain ⟨h1, h2, h3⟩ := ih (i0 + 1) p hp
      refine ⟨by omega, ?_, h3⟩
      have hk : p.1 - i0 = (p.1 - (i0 + 1)) + 1 := by omega
      rw [hk]
      simpa using h2

/-- Every matching header of the list appears among the matched entries. -/
lemma matchedEntries_exists (tgt : Nat) :
    ∀ (l : List SectorHeaderRec) (i0 : Nat) (x : SectorHeaderRec),
      x ∈ l → x.number = tgt → ∃ j, (j, x) ∈ matchedEntries tgt i0 l := by
  intro l
  induction l with
  | nil => intro i0 x hx; simp at hx
  | cons h t ih =>
    intro i0 x hx hm
    rcases List.mem_cons.mp hx with hx | hx
    · subst hx
      exact ⟨i0, by rw [matchedEntries, if_pos hm]; exact List.mem_cons_self _ _⟩
    · obtain ⟨j, hj⟩ := ih (i0 + 1) x hx hm
      by_cases hh : h.number = tgt
      · exact ⟨j, by rw [matchedEntries, if_pos hh]; exact List.mem_cons_of_mem _ hj⟩
      · exact ⟨j, by rw [matchedEntries, if_neg hh]; exact hj⟩

/-- Pointwise description of the randomization loop: positions in
`[start, start + n)` hold the random stream value, all others are untouched. -/
lemma weakFillAux_apply (rand : Nat → Nat) :
    ∀ (n i0 : Nat) (b : Nat → Nat) (j : Nat),
      weakFillAux rand i0 n b j =
        if i0 ≤ j ∧ j < i0 + n then rand j % 256 else b j := by
  intro n
  induction n with
  | zero =>
    intro i0 b j
    rw [weakFillAux]
    have : ¬ (i0 ≤ j ∧ j < i0 + 0) := by omega
    rw [if_neg this]
  | succ n ih =>
    intro i0 b j
    rw [weakFillAux, ih, Function.update_apply]
    by_cases h1 : i0 + 1 ≤ j ∧ j < i0 + 1 + n
    · rw [if_pos h1, if_pos (by omega : i0 ≤ j ∧ j < i0 + (n + 1))]
    · rw [if_neg h1]
      by_cases hj : j = i0
      · subst hj
        rw [if_pos rfl, if_pos (by omega : j ≤ j ∧ j < j + (n + 1))]
      · rw [if_neg hj, if_neg (by omega : ¬ (i0 ≤ j ∧ j < i0 + (n + 1)))]

/-- Weak scan invariant: either nothing matched yet and the state is the
initial one, or the chosen-occurrence fields of the state all come from one
matched entry seen so far. -/
def ScanInvW (tgt la0 : Nat) (seen : List (Nat × SectorHeaderRec)) (s : ScanState) : Prop :=
  (seen = [] ∧ s = initScanState la0) ∨
  (∃ p, p ∈ seen ∧ p.2.number = tgt ∧
    s.tgtSectorIndex = p.1 ∧ s.lastAngle = p.2.timev ∧
    s.status = complement8 p.2.status ∧ s.tgtSectorOffset = p.2.data)

/-- One matching header preserves the weak invariant. -/
lemma scanStep_invW (head tgt la0 i : Nat) (h : SectorHeaderRec)
    (seen : List (Nat × SectorHeaderRec)) (s : ScanState)
    (hm : h.number = tgt) (hinv : ScanInvW tgt la0 seen s) :
    ScanInvW tgt la0 (seen ++ [(i, h)]) (scanStep head tgt i h s) := by
  rw [scanStep, if_pos hm]
  simp only []
  by_cases hacc : acceptCond s.pTT (ttOf h.timev head) = true
  · rw [if_pos hacc]
    exact Or.inr ⟨(i, h), List.mem_append_right _ (List.mem_singleton_self _), hm,
      rfl, rfl, rfl, rfl⟩
  · rw [if_neg hacc]
    rcases hinv with ⟨hseen, hs⟩ | ⟨p, hp, h1, h2, h3, h4, h5⟩
    · exact absurd (by rw [hs]; rw [acceptCond_iff]; exact Or.inl rfl) hacc
    · exact Or.inr ⟨p, List.mem_append_left _ hp, h1, h2, h3, h4, h5⟩

/-- A non-matching header leaves the scan state unchanged. -/
lemma scanStep_skip (head tgt i : Nat) (h : SectorHeaderRec) (s : ScanState)
    (hm : ¬ h.number = tgt) : scanStep head tgt i h s = s := by
  rw [scanStep, if_neg hm]

/-- The weak invariant carries through the whole scan. -/
lemma scanList_invW (head tgt la0 : Nat) :
    ∀ (l : List SectorHeaderRec) (i0 : Nat) (seen : List (Nat × SectorHeaderRec)) (s : ScanState),
      ScanInvW tgt la0 seen s →
      ScanInvW tgt la0 (seen ++ matchedEntries tgt i0 l) (scanList head tgt l i0 s) := by
  intro l
  induction l with
  | nil => intro i0 seen s hinv; simpa [matchedEntries, scanList] using hinv
  | cons h t ih =>
    intro i0 seen s hinv
    rw [scanList]
    by_cases hm : h.number = tgt
    · rw [matchedEntries, if_pos hm]
      have := ih (i0 + 1) (seen ++ [(i0, h)]) _ (scanStep_invW head tgt la0 i0 h seen s hm hinv)
      simpa [List.append_assoc] using this
    · rw [matchedEntries, if_neg hm, scanStep_skip head tgt i0 h s hm]
      exact ih (i0 + 1) seen s hinv

/-- Minimality invariant: either nothing matched yet, or the state's chosen
occurrence is a matched entry whose forward angular distance is minimal
among all matched entries seen so far (all marks in range). -/
def ScanInvM (head tgt la0 : Nat) (seen : List (Nat × SectorHeaderRec)) (s : ScanState) : Prop :=
  (seen = [] ∧ s = initScanState la0) ∨
  (∃ p, p ∈ seen ∧ p.2.number = tgt ∧ p.2.timev < 26042 ∧
    s.tgtSectorIndex = p.1 ∧ s.lastAngle = p.2.timev ∧
    s.pTT = (p.2.timev : Int) - (head : Int) ∧
    ∀ q ∈ seen, fwd head p.2.timev ≤ fwd head q.2.timev)

/-- One matching in-range header preserves the minimality invariant. -/
lemma scanStep_invM (head tgt la0 i : Nat) (h : SectorHeaderRec)
    (seen : List (Nat × SectorHeaderRec)) (s : ScanState)
    (hh : head < 26042) (ht : h.timev < 26042) (hm : h.number = tgt)
    (hinv : ScanInvM head tgt la0 seen s) :
    ScanInvM head tgt la0 (seen ++ [(i, h)]) (scanStep head tgt i h s) := by
  have htt : ttOf h.timev head = (h.timev : Int) - (head : Int) :=
    ttOf_eq _ _ (by omega) (by omega)
  rw [scanStep, if_pos hm]
  simp only []
  by_cases hacc : acceptCond s.pTT (ttOf h.timev head) = true
  · rw [if_pos hacc]
    right
    refine ⟨(i, h), List.mem_append_right _ (List.mem_singleton_self _), hm, ht,
      rfl, rfl, htt, ?_⟩
    intro q hq
    rcases List.mem_append.mp hq with hq | hq
    · rcases hinv with ⟨hseen, _⟩ | ⟨p, hp, hpm, hpt, h1, h2, h3, hmin⟩
      · rw [hseen] at hq; simp at hq
      · rw [acceptCond_iff, h3, htt] at hacc
        rcases hacc with h0 | hcase
        · have hpe : p.2.timev = head := by omega
          have := hmin q hq
          rw [hpe, fwd_self] at this
          exact le_trans (fwd_le_full head h.timev ht) this
        · exact le_trans (fwd_new_le_old head p.2.timev h.timev hh hpt ht hcase) (hmin q hq)
    · rw [List.mem_singleton] at hq
      rw [hq]
  · rw [if_neg hacc]
    rcases hinv with ⟨hseen, hs⟩ | ⟨p, hp, hpm, hpt, h1, h2, h3, hmin⟩
    · exact absurd (by rw [hs]; rw [acceptCond_iff]; exact Or.inl rfl) hacc
    · right
      refine ⟨p, List.mem_append_left _ hp, hpm, hpt, h1, h2, h3, ?_⟩
      intro q hq
      rcases List.mem_append.mp hq with hq | hq
      · exact hmin q hq
      · rw [List.mem_singleton] at hq
        rw [hq]
        rw [acceptCond_iff, h3, htt] at hacc
        exact fwd_old_le_new head p.2.timev h.timev hh hpt ht
          (fun h0 => hacc (Or.inl h0)) (fun hc => hacc (Or.inr hc))

/-- The minimality invariant carries through the whole scan. -/
lemma scanList_invM (head tgt la0 : Nat) (hh : head < 26042) :
    ∀ (l : List SectorHeaderRec), (∀ x ∈ l, x.timev < 26042) →
    ∀ (i0 : Nat) (seen : List (Nat × SectorHeaderRec)) (s : ScanState),
      ScanInvM head tgt la0 seen s →
      ScanInvM head tgt la0 (seen ++ matchedEntries tgt i0 l) (scanList head tgt l i0 s) := by
  intro l
  induction l with
  | nil => intro _ i0 seen s hinv; simpa [matchedEntries, scanList] using hinv
  | cons h t ih =>
    intro hb i0 seen s hinv
    rw [scanList]
    by_cases hm : h.number = tgt
    · rw [matchedEntries, if_pos hm]
      have hstep := scanStep_invM head tgt la0 i0 h seen s hh
        (hb h (List.mem_cons_self _ _)) hm hinv
      have := ih (fun x hx => hb x (List.mem_cons_of_mem _ hx)) (i0 + 1) (seen ++ [(i0, h)]) _ hstep
      simpa [List.append_assoc] using this
    · rw [matchedEntries, if_neg hm, scanStep_skip head tgt i0 h s hm]
      exact ih (fun x hx => hb x (List.mem_cons_of_mem _ hx)) (i0 + 1) seen s hinv

/-- One step preserves the fact that `hasError` is exactly "some accepted
occurrence carries a nonzero status". -/
lemma scanStep_hasError (head tgt i : Nat) (h : SectorHeaderRec) (s : ScanState)
    (hs : s.hasError = s.accepted.any fun p => decide (0 < p.2.status)) :
    (scanStep head tgt i h s).hasError =
      (scanStep head tgt i h s).accepted.any fun p => decide (0 < p.2.status) := by
  rw [scanStep]
  by_cases hm : h.number = tgt
  · rw [if_pos hm]
    simp only []
    by_cases hacc : acceptCond s.pTT (ttOf h.timev head) = true
    · rw [if_pos hacc]
      simp [List.any_append, hs]
    · rw [if_neg hacc]; exact hs
  · rw [if_neg hm]; exact hs

/-- The flag `hasError` equals "some accepted occurrence has nonzero status" after the
fuelled scan loop, for any read oracle. -/
lemma scanAux_hasError (head tgt : Nat) (f : Nat → Option SectorHeaderRec) :
    ∀ (fuel i idx : Nat) (s : ScanState),
      s.hasError = s.accepted.any (fun p => decide (0 < p.2.status)) →
      (scanAux head tgt f fuel i idx s).hasError =
        (scanAux head tgt f fuel i idx s).accepted.any fun p => decide (0 < p.2.status) := by
  intro fuel
  induction fuel with
  | zero => intro i idx s hs; exact hs
  | succ n ih =>
    intro i idx s hs
    rw [scanAux]
    cases hf : f idx with
    | some h => exact ih _ _ _ (scanStep_hasError head tgt i h s hs)
    | none => exact ih _ _ _ hs

/-- On the main path, `loadAtxSector` is `loadAtxSectorMain`. -/
lemma loadAtxSector_eq_main (g : AtxGlobals) (env : SectorEnv) (drive num : Nat)
    (hspt : ¬ g.gSectorsPerTrack = 0)
    (htrk : tgtTrackOf g.gSectorsPerTrack num ≤ 40)
    (hc0 : env.trackHeader.sectorCount ≠ 0)
    (htn : (env.trackHeader.trackNumber : Int) = (tgtTrackOf g.gSectorsPerTrack num : Int) - 1) :
    loadAtxSector g env drive num =
      some (loadAtxSectorMain g env env.head1 (tgtTrackOf g.gSectorsPerTrack num)
        (tgtSectorOf g.gSectorsPerTrack num) (preTraceOf g num)) := by
  rw [loadAtxSector, if_neg hspt]
  simp only []
  rw [if_neg (by omega : ¬ 40 < tgtTrackOf g.gSectorsPerTrack num)]
  have hcond : ¬ (env.trackHeader.sectorCount = 0 ∨
      (env.trackHeader.trackNumber : Int) ≠ (tgtTrackOf g.gSectorsPerTrack num : Int) - 1) := by
    push_neg
    exact ⟨hc0, htn⟩
  rw [if_neg hcond]

/-- With an all-successful sector list the fuelled scan equals the list scan. -/
lemma scanOf_eq_scanList (g : AtxGlobals) (env : SectorEnv) (head tgt : Nat)
    (l : List SectorHeaderRec)
    (hsec : env.sectors = fun i => l[i]?)
    (hcount : env.trackHeader.sectorCount = l.length) :
    scanOf g env head tgt = scanList head tgt l 0 (initScanState g.gLastAngle) := by
  rw [scanOf, hcount, hsec]
  exact scanAux_eq_scanList head tgt l _ 0 0 (fun j => by simp) _

/-- On the main path the first component of the returned pair is the main
result. -/
lemma loadAtxSector_fst (g : AtxGlobals) (env : SectorEnv) (drive num : Nat)
    (r : SectorResult) (g' : AtxGlobals)
    (hspt : ¬ g.gSectorsPerTrack = 0)
    (htrk : tgtTrackOf g.gSectorsPerTrack num ≤ 40)
    (hc0 : env.trackHeader.sectorCount ≠ 0)
    (htn : (env.trackHeader.trackNumber : Int) = (tgtTrackOf g.gSectorsPerTrack num : Int) - 1)
    (hrun : loadAtxSector g env drive num = some (r, g')) :
    r = (loadAtxSectorMain g env env.head1 (tgtTrackOf g.gSectorsPerTrack num)
      (tgtSectorOf g.gSectorsPerTrack num) (preTraceOf g num)).1 := by
  rw [loadAtxSector_eq_main g env drive num hspt htrk hc0 htn, Option.some.injEq] at hrun
  exact (congrArg Prod.fst hrun).symm

/-- The main result's chosen index is the scan's final target index. -/
lemma main_chosenIndex (g : AtxGlobals) (env : SectorEnv) (head tT tS : Nat) (preT : List Phase) :
    (loadAtxSectorMain g env head tT tS preT).1.chosenIndex =
      (scanOf g env head tS).tgtSectorIndex := rfl

/-- The main result's status byte is the scan's final status byte. -/
lemma main_status (g : AtxGlobals) (env : SectorEnv) (head tT tS : Nat) (preT : List Phase) :
    (loadAtxSectorMain g env head tT tS preT).1.status = (scanOf g env head tS).status := rfl

/-- The main result's ghost accepted list is the scan's. -/
lemma main_accepted (g : AtxGlobals) (env : SectorEnv) (head tT tS : Nat) (preT : List Phase) :
    (loadAtxSectorMain g env head tT tS preT).1.accepted = (scanOf g env head tS).accepted := rfl

/-- The main result's byte count: 0 on `hasError`, otherwise the payload
read's return value when a nonzero data offset was resolved, else 0. -/
lemma main_bytes (g : AtxGlobals) (env : SectorEnv) (head tT tS : Nat) (preT : List Phase) :
    (loadAtxSectorMain g env head tT tS preT).1.bytes =
      (if (scanOf g env head tS).hasError then 0
       else if (scanOf g env head tS).tgtSectorOffset ≠ 0 then env.dataReadLen else 0) := rfl

/-- C1: for every call whose track read succeeds and whose sector list
contains at least one header matching the requested in-track sector number
(all angular marks and the head sample in range), the occurrence finally
chosen by the scan loop is one with the smallest forward angular distance
from the pre-read head sample — `timev - head` when positive, otherwise
`timev - head + 26042` — including the case in which every matching
occurrence lies behind the head. -/
theorem C1_locator_picks_nearest_forward
    (g : AtxGlobals) (env : SectorEnv) (drive num : Nat) (l : List SectorHeaderRec)
    (r : SectorResult) (g' : AtxGlobals)
    (hspt : ¬ g.gSectorsPerTrack = 0)
    (htrk : tgtTrackOf g.gSectorsPerTrack num ≤ 40)
    (hc0 : env.trackHeader.sectorCount ≠ 0)
    (htn : (env.trackHeader.trackNumber : Int) = (tgtTrackOf g.gSectorsPerTrack num : Int) - 1)
    (hsec : env.sectors = fun i => l[i]?)
    (hcount : env.trackHeader.sectorCount = l.length)
    (hh : env.head1 < 26042)
    (htv : ∀ x ∈ l, x.timev < 26042)
    (hex : ∃ x ∈ l, x.number = tgtSectorOf g.gSectorsPerTrack num)
    (hrun : loadAtxSector g env drive num = some (r, g')) :
    r.chosenIndex < l.length ∧
    (l.getD r.chosenIndex default).number = tgtSectorOf g.gSectorsPerTrack num ∧
    ∀ x ∈ l, x.number = tgtSectorOf g.gSectorsPerTrack num →
      fwd env.head1 (l.getD r.chosenIndex default).timev ≤ fwd env.head1 x.timev := by
  have hr := loadAtxSector_fst g env drive num r g' hspt htrk hc0 htn hrun
  have hci : r.chosenIndex =
      (scanList env.head1 (tgtSectorOf g.gSectorsPerTrack num) l 0
        (initScanState g.gLastAngle)).tgtSectorIndex := by
    rw [hr, main_chosenIndex,
      scanOf_eq_scanList g env env.head1 (tgtSectorOf g.gSectorsPerTrack num) l hsec hcount]
  have hinv := scanList_invM env.head1 (tgtSectorOf g.gSectorsPerTrack num) g.gLastAngle hh
    l htv 0 [] (initScanState g.gLastAngle) (Or.inl ⟨rfl, rfl⟩)
  rw [List.nil_append] at hinv
  rcases hinv with ⟨hm0, _⟩ | ⟨p, hp, hpm, _, h1, _, _, hmin⟩
  · obtain ⟨x, hx, hxm⟩ := hex
    obtain ⟨j, hj⟩ := matchedEntries_exists (tgtSectorOf g.gSectorsPerTrack num) l 0 x hx hxm
    rw [hm0] at hj
    simp at hj
  · obtain ⟨_, hget, _⟩ :=
      matchedEntries_get (tgtSectorOf g.gSectorsPerTrack num) l 0 p hp
    rw [Nat.sub_zero] at hget
    obtain ⟨hlt, _⟩ := List.getElem?_eq_some.mp hget
    have hgd : l.getD p.1 default = p.2 := by
      rw [List.getD_eq_getElem?_getD, hget]
      rfl
    rw [hci, h1, hgd]
    refine ⟨hlt, hpm, ?_⟩
    intro x hx hxm
    obtain ⟨j, hj⟩ := matchedEntries_exists (tgtSectorOf g.gSectorsPerTrack num) l 0 x hx hxm
    exact hmin (j, x) hj

/-- The sector list of the spec's end-to-end example: two occurrences of
sector 1 with angular marks 20000 and 100, head at 50. -/
def lC1 : List SectorHeaderRec :=
  [{ number := 1, timev := 20000, status := 0, data := 16 },
   { number := 1, timev := 100, status := 0, data := 144 }]

/-- The pair returned by the C1 example call. -/
def c1pair : SectorResult × AtxGlobals :=
  (loadAtxSector gStd (envOf lC1 fun _ => none) 0 1).getD
    (notFoundResult (envOf lC1 fun _ => none) [], gStd)

/-- C1 witness: on the two-occurrence example the chosen occurrence is a
match with minimal forward distance (the 100-mark one, at distance 50). -/
theorem C1_locator_picks_nearest_forward_witness :
    c1pair.1.chosenIndex < lC1.length ∧
    (lC1.getD c1pair.1.chosenIndex default).number = tgtSectorOf gStd.gSectorsPerTrack 1 ∧
    ∀ x ∈ lC1, x.number = tgtSectorOf gStd.gSectorsPerTrack 1 →
      fwd (envOf lC1 fun _ => none).head1 (lC1.getD c1pair.1.chosenIndex default).timev ≤
        fwd (envOf lC1 fun _ => none).head1 x.timev :=
  C1_locator_picks_nearest_forward gStd (envOf lC1 fun _ => none) 0 1 lC1
    c1pair.1 c1pair.2 (by decide) (by decide) (by decide) (by decide) rfl rfl
    (by decide) (by decide) ⟨{ number := 1, timev := 20000, status := 0, data := 16 },
      by decide, by decide⟩ rfl

/-- On the track-over-40 path the result is the empty-trace not-found record. -/
lemma loadAtxSector_over40_fst (g : AtxGlobals) (env : SectorEnv) (drive num : Nat)
    (r : SectorResult) (g' : AtxGlobals)
    (hspt : ¬ g.gSectorsPerTrack = 0)
    (h40 : 40 < tgtTrackOf g.gSectorsPerTrack num)
    (hrun : loadAtxSector g env drive num = some (r, g')) :
    r = notFoundResult env [] := by
  rw [loadAtxSector, if_neg hspt] at hrun
  simp only [] at hrun
  rw [if_pos h40, Option.some.injEq] at hrun
  exact (congrArg Prod.fst hrun).symm

/-- On the bad-track-header path the result is the not-found record carrying
the pre-check trace. -/
lemma loadAtxSector_fail_fst (g : AtxGlobals) (env : SectorEnv) (drive num : Nat)
    (r : SectorResult) (g' : AtxGlobals)
    (hspt : ¬ g.gSectorsPerTrack = 0)
    (htrk : tgtTrackOf g.gSectorsPerTrack num ≤ 40)
    (hfail : env.trackHeader.sectorCount = 0 ∨
      (env.trackHeader.trackNumber : Int) ≠ (tgtTrackOf g.gSectorsPerTrack num : Int) - 1)
    (hrun : loadAtxSector g env drive num = some (r, g')) :
    r = notFoundResult env (preTraceOf g num) := by
  rw [loadAtxSector, if_neg hspt] at hrun
  simp only [] at hrun
  rw [if_neg (by omega : ¬ 40 < tgtTrackOf g.gSectorsPerTrack num), if_pos hfail,
    Option.some.injEq] at hrun
  exact (congrArg Prod.fst hrun).symm

/-- C4: for every call, if any occurrence that became the running best
during the sector-list scan carries a nonzero on-disk status byte, the
returned byte count is 0 — even when a nonzero data offset was resolved and
the payload read succeeded, and even if the finally chosen occurrence's own
status is zero: the error flag, once set by an interim best, is never
cleared. -/
theorem C4_interim_error_zeroes_length (g : AtxGlobals) (env : SectorEnv)
    (drive num : Nat) (r : SectorResult) (g' : AtxGlobals)
    (hspt : ¬ g.gSectorsPerTrack = 0)
    (hrun : loadAtxSector g env drive num = some (r, g'))
    (hex : ∃ p ∈ r.accepted, 0 < p.2.status) :
    r.bytes = 0 := by
  by_cases h40 : 40 < tgtTrackOf g.gSectorsPerTrack num
  · rw [loadAtxSector_over40_fst g env drive num r g' hspt h40 hrun] at hex ⊢
    simp [notFoundResult] at hex
  · by_cases hfail : env.trackHeader.sectorCount = 0 ∨
        (env.trackHeader.trackNumber : Int) ≠ (tgtTrackOf g.gSectorsPerTrack num : Int) - 1
    · rw [loadAtxSector_fail_fst g env drive num r g' hspt (by omega) hfail hrun] at hex ⊢
      simp [notFoundResult] at hex
    · push_neg at hfail
      have hr := loadAtxSector_fst g env drive num r g' hspt (by omega) hfail.1 hfail.2 hrun
      rw [hr, main_accepted] at hex
      rw [hr, main_bytes]
      have hHE := scanAux_hasError env.head1 (tgtSectorOf g.gSectorsPerTrack num) env.sectors
        env.trackHeader.sectorCount 0 0 (initScanState g.gLastAngle) rfl
      have hany : ((scanOf g env env.head1 (tgtSectorOf g.gSectorsPerTrack num)).accepted.any
          fun p => decide (0 < p.2.status)) = true := by
        rw [List.any_eq_true]
        obtain ⟨p, hp, hps⟩ := hex
        exact ⟨p, hp, by simpa using hps⟩
      rw [show (scanOf g env env.head1 (tgtSectorOf g.gSectorsPerTrack num)).hasError = true from
        hHE.trans hany, if_pos rfl]

/-- The sector list for the C4 example: an interim best with nonzero status
(mark 100), then a nearer final best with status 0 (mark 60), head at 50. -/
def lC4 : List SectorHeaderRec :=
  [{ number := 1, timev := 100, status := 4, data := 16 },
   { number := 1, timev := 60, status := 0, data := 32 }]

/-- The pair returned by the C4 example call. -/
def c4pair : SectorResult × AtxGlobals :=
  (loadAtxSector gStd (envOf lC4 fun _ => none) 0 1).getD
    (notFoundResult (envOf lC4 fun _ => none) [], gStd)

/-- C4 witness: the interim best carried status 4, the final best status 0,
yet the returned byte count is 0. -/
theorem C4_interim_error_zeroes_length_witness : c4pair.1.bytes = 0 :=
  C4_interim_error_zeroes_length gStd (envOf lC4 fun _ => none) 0 1 c4pair.1 c4pair.2
    (by decide) rfl
    ⟨(0, { number := 1, timev := 100, status := 4, data := 16 }), by decide, by decide⟩

/-- C6: for every call, the output status byte is the bitwise complement
(mod 256) of the on-disk status byte of the finally chosen occurrence, and
is the 0xF7 sentinel when no occurrence matched the requested in-track
sector number or the lookup failed earlier (track over 40, zero sector
count, or track-number mismatch). -/
theorem C6_status_complement_or_sentinel (g : AtxGlobals) (env : SectorEnv)
    (drive num : Nat) (l : List SectorHeaderRec) (r : SectorResult) (g' : AtxGlobals)
    (hspt : ¬ g.gSectorsPerTrack = 0)
    (hsec : env.sectors = fun i => l[i]?)
    (hcount : env.trackHeader.sectorCount = l.length)
    (hrun : loadAtxSector g env drive num = some (r, g')) :
    (40 < tgtTrackOf g.gSectorsPerTrack num → r.status = 0xF7) ∧
    (tgtTrackOf g.gSectorsPerTrack num ≤ 40 →
      (env.trackHeader.sectorCount = 0 ∨
        (env.trackHeader.trackNumber : Int) ≠ (tgtTrackOf g.gSectorsPerTrack num : Int) - 1) →
      r.status = 0xF7) ∧
    (tgtTrackOf g.gSectorsPerTrack num ≤ 40 →
      env.trackHeader.sectorCount ≠ 0 →
      (env.trackHeader.trackNumber : Int) = (tgtTrackOf g.gSectorsPerTrack num : Int) - 1 →
      (∀ x ∈ l, x.number ≠ tgtSectorOf g.gSectorsPerTrack num) →
      r.status = 0xF7) ∧
    (tgtTrackOf g.gSectorsPerTrack num ≤ 40 →
      env.trackHeader.sectorCount ≠ 0 →
      (env.trackHeader.trackNumber : Int) = (tgtTrackOf g.gSectorsPerTrack num : Int) - 1 →
      (∃ x ∈ l, x.number = tgtSectorOf g.gSectorsPerTrack num) →
      r.chosenIndex < l.length ∧
      (l.getD r.chosenIndex default).number = tgtSectorOf g.gSectorsPerTrack num ∧
      r.status = complement8 (l.getD r.chosenIndex default).status) := by
  refine ⟨fun h40 => ?_, fun htrk hfail => ?_, fun htrk hc0 htn hnone => ?_,
    fun htrk hc0 htn hex => ?_⟩
  · rw [loadAtxSector_over40_fst g env drive num r g' hspt h40 hrun]
    rfl
  · rw [loadAtxSector_fail_fst g env drive num r g' hspt htrk hfail hrun]
    rfl
  · have hr := loadAtxSector_fst g env drive num r g' hspt htrk hc0 htn hrun
    rw [hr, main_status,
      scanOf_eq_scanList g env env.head1 (tgtSectorOf g.gSectorsPerTrack num) l hsec hcount]
    have hinv := scanList_invW env.head1 (tgtSectorOf g.gSectorsPerTrack num) g.gLastAngle
      l 0 [] (initScanState g.gLastAngle) (Or.inl ⟨rfl, rfl⟩)
    rw [List.nil_append] at hinv
    rcases hinv with ⟨_, hs⟩ | ⟨p, hp, hpm, _, _, _, _⟩
    · rw [hs]; rfl
    · obtain ⟨_, hget, _⟩ :=
        matchedEntries_get (tgtSectorOf g.gSectorsPerTrack num) l 0 p hp
      rw [Nat.sub_zero] at hget
      exact absurd hpm (hnone p.2 (List.getElem?_mem hget))
  · have hr := loadAtxSector_fst g env drive num r g' hspt htrk hc0 htn hrun
    have hci : r.chosenIndex =
        (scanList env.head1 (tgtSectorOf g.gSectorsPerTrack num) l 0
          (initScanState g.gLastAngle)).tgtSectorIndex := by
      rw [hr, main_chosenIndex,
        scanOf_eq_scanList g env env.head1 (tgtSectorOf g.gSectorsPerTrack num) l hsec hcount]
    have hst : r.status =
        (scanList env.head1 (tgtSectorOf g.gSectorsPerTrack num) l 0
          (initScanState g.gLastAngle)).status := by
      rw [hr, main_status,
        scanOf_eq_scanList g env env.head1 (tgtSectorOf g.gSectorsPerTrack num) l hsec hcount]
    have hinv := scanList_invW env.head1 (tgtSectorOf g.gSectorsPerTrack num) g.gLastAngle
      l 0 [] (initScanState g.gLastAngle) (Or.inl ⟨rfl, rfl⟩)
    rw [List.nil_append] at hinv
    rcases hinv with ⟨hm0, _⟩ | ⟨p, hp, hpm, h1, _, h3, _⟩
    · obtain ⟨x, hx, hxm⟩ := hex
      obtain ⟨j, hj⟩ :=
        matchedEntries_exists (tgtSectorOf g.gSectorsPerTrack num) l 0 x hx hxm
      rw [hm0] at hj
      simp at hj
    · obtain ⟨_, hget, _⟩ :=
        matchedEntries_get (tgtSectorOf g.gSectorsPerTrack num) l 0 p hp
      rw [Nat.sub_zero] at hget
      obtain ⟨hlt, _⟩ := List.getElem?_eq_some.mp hget
      have hgd : l.getD p.1 default = p.2 := by
        rw [List.getD_eq_getElem?_getD, hget]
        rfl
      rw [hci, h1, hgd, hst, h3]
      exact ⟨hlt, hpm, rfl⟩

/-- C6 witness: on the two-occurrence example the chosen occurrence's status
byte 0 is reported complemented as 0xFF (and all failure clauses hold
vacuously). -/
theorem C6_status_complement_or_sentinel_witness :
    (40 < tgtTrackOf gStd.gSectorsPerTrack 1 → c1pair.1.status = 0xF7) ∧
    (tgtTrackOf gStd.gSectorsPerTrack 1 ≤ 40 →
      ((envOf lC1 fun _ => none).trackHeader.sectorCount = 0 ∨
        ((envOf lC1 fun _ => none).trackHeader.trackNumber : Int) ≠
          (tgtTrackOf gStd.gSectorsPerTrack 1 : Int) - 1) →
      c1pair.1.status = 0xF7) ∧
    (tgtTrackOf gStd.gSectorsPerTrack 1 ≤ 40 →
      (envOf lC1 fun _ => none).trackHeader.sectorCount ≠ 0 →
      ((envOf lC1 fun _ => none).trackHeader.trackNumber : Int) =
        (tgtTrackOf gStd.gSectorsPerTrack 1 : Int) - 1 →
      (∀ x ∈ lC1, x.number ≠ tgtSectorOf gStd.gSectorsPerTrack 1) →
      c1pair.1.status = 0xF7) ∧
    (tgtTrackOf gStd.gSectorsPerTrack 1 ≤ 40 →
      (envOf lC1 fun _ => none).trackHeader.sectorCount ≠ 0 →
      ((envOf lC1 fun _ => none).trackHeader.trackNumber : Int) =
        (tgtTrackOf gStd.gSectorsPerTrack 1 : Int) - 1 →
      (∃ x ∈ lC1, x.number = tgtSectorOf gStd.gSectorsPerTrack 1) →
      c1pair.1.chosenIndex < lC1.length ∧
      (lC1.getD c1pair.1.chosenIndex default).number = tgtSectorOf gStd.gSectorsPerTrack 1 ∧
      c1pair.1.status = complement8 (lC1.getD c1pair.1.chosenIndex default).status) :=
  C6_status_complement_or_sentinel gStd (envOf lC1 fun _ => none) 0 1 lC1
    c1pair.1 c1pair.2 (by decide) rfl rfl rfl

/-- The main result's resolved weak offset. -/
lemma main_weakOffset (g : AtxGlobals) (env : SectorEnv) (head tT tS : Nat) (preT : List Phase) :
    (loadAtxSectorMain g env head tT tS preT).1.weakOffset =
      (if 0 < (scanOf g env head tS).extRecordCount then
        extScan env.extRecords (scanOf g env head tS).extRecordCount
          (scanOf g env head tS).tgtSectorIndex
      else -1) := rfl

/-- The main result's chosen data offset is the scan's. -/
lemma main_chosenOffset (g : AtxGlobals) (env : SectorEnv) (head tT tS : Nat) (preT : List Phase) :
    (loadAtxSectorMain g env head tT tS preT).1.chosenOffset =
      (scanOf g env head tS).tgtSectorOffset := rfl

/-- The main result's error flag is the scan's. -/
lemma main_hasError (g : AtxGlobals) (env : SectorEnv) (head tT tS : Nat) (preT : List Phase) :
    (loadAtxSectorMain g env head tT tS preT).1.hasError =
      (scanOf g env head tS).hasError := rfl

/-- The main result's buffer: the content after the payload read (the read
happens only when a nonzero data offset was resolved), with the weak region
randomized when a weak offset was resolved. -/
lemma main_buffer (g : AtxGlobals) (env : SectorEnv) (head tT tS : Nat) (preT : List Phase) :
    (loadAtxSectorMain g env head tT tS preT).1.buffer =
      (if -1 < (loadAtxSectorMain g env head tT tS preT).1.weakOffset then
        weakFill env.rand (loadAtxSectorMain g env head tT tS preT).1.weakOffset.toNat
          g.gBytesPerSector
          (if (scanOf g env head tS).tgtSectorOffset ≠ 0 then env.dataBytes else env.bufferPrior)
      else
        (if (scanOf g env head tS).tgtSectorOffset ≠ 0 then env.dataBytes
         else env.bufferPrior)) := rfl

/-- C5: for every call in which the weak-data resolver finds a matching
extended record with start offset `K`, after the sector-data read every
buffer byte at an index in `[K, bytesPerSector)` is overwritten with a
freshly generated pseudo-random value while bytes at indices in `[0, K)`
retain the data read from disk; the overwrite runs after the data read and
even when `hasError` forced the returned length to 0. -/
theorem C5_weak_region_randomized (g : AtxGlobals) (env : SectorEnv)
    (drive num : Nat) (r : SectorResult) (g' : AtxGlobals) (K : Nat)
    (hspt : ¬ g.gSectorsPerTrack = 0)
    (htrk : tgtTrackOf g.gSectorsPerTrack num ≤ 40)
    (hc0 : env.trackHeader.sectorCount ≠ 0)
    (htn : (env.trackHeader.trackNumber : Int) = (tgtTrackOf g.gSectorsPerTrack num : Int) - 1)
    (hK : r.weakOffset = (K : Int))
    (hoff : r.chosenOffset ≠ 0)
    (hrun : loadAtxSector g env drive num = some (r, g')) :
    (∀ i, K ≤ i → i < g.gBytesPerSector → r.buffer i = env.rand i % 256) ∧
    (∀ i, i < K → r.buffer i = env.dataBytes i) ∧
    (r.hasError = true → r.bytes = 0) := by
  have hr := loadAtxSector_fst g env drive num r g' hspt htrk hc0 htn hrun
  rw [hr, main_chosenOffset] at hoff
  rw [hr] at hK
  have hbuf : r.buffer = weakFill env.rand K g.gBytesPerSector env.dataBytes := by
    rw [hr, main_buffer, hK, if_pos (by omega : (-1 : Int) < (K : Int)),
      Int.toNat_natCast, if_pos hoff]
  refine ⟨fun i hKi hib => ?_, fun i hiK => ?_, fun hhe => ?_⟩
  · rw [hbuf, weakFill, weakFillAux_apply, if_pos (by omega : K ≤ i ∧ i < K + (g.gBytesPerSector - K))]
  · rw [hbuf, weakFill, weakFillAux_apply, if_neg (by omega : ¬ (K ≤ i ∧ i < K + (g.gBytesPerSector - K)))]
  · rw [hr, main_hasError] at hhe
    rw [hr, main_bytes, if_pos hhe]

/-- The sector list for the C5 example: one occurrence with the
extended-data bit (0x40) set, data offset 16. -/
def lC5 : List SectorHeaderRec :=
  [{ number := 1, timev := 100, status := 64, data := 16 }]

/-- The extended-record oracle for the C5 example: one weak-data record
(type 0x10) for list index 0 with start offset 32. -/
def extC5 : Nat → Option ExtRecordRec :=
  fun i => if i = 0 then some { sectorIndex := 0, type := 16, data := 32 } else none

/-- The pair returned by the C5 example call. -/
def c5pair : SectorResult × AtxGlobals :=
  (loadAtxSector gStd (envOf lC5 extC5) 0 1).getD
    (notFoundResult (envOf lC5 extC5) [], gStd)

/-- C5 witness: with weak start offset 32 on a 128-byte sector, bytes 32..127
are the random stream and bytes 0..31 are the payload, while the
0x40-status occurrence also set `hasError` and forced the count to 0. -/
theorem C5_weak_region_randomized_witness :
    (∀ i, 32 ≤ i → i < gStd.gBytesPerSector →
      c5pair.1.buffer i = (envOf lC5 extC5).rand i % 256) ∧
    (∀ i, i < 32 → c5pair.1.buffer i = (envOf lC5 extC5).dataBytes i) ∧
    (c5pair.1.hasError = true → c5pair.1.bytes = 0) :=
  C5_weak_region_randomized gStd (envOf lC5 extC5) 0 1 c5pair.1 c5pair.2 32
    (by decide) (by decide) (by decide) (by decide) (by decide) (by decide) rfl
